import Mathlib

/-!
Shallow embedding of `src/cxx/trainer/src/MAP_GMMTrainer.cc` (bob's MAP
adaptation trainer for Gaussian mixture models), together with theorems
settling the specification claims about `setPriorGMM`, `initialization`
and `mStep`.

Modelling conventions:
* A GMM with `K` Gaussians over `D`-dimensional inputs is a triple of
  total functions (weights, means, diagonal variances) with rational
  scalars; the C++ `double` arithmetic is embedded as exact arithmetic
  over `ℚ`.
* The trainer's raw pointer `m_prior_gmm` (NULL-initialised in the
  constructor) becomes an `Option`.
* `mStep` throws `NoPriorGMM` when the prior is absent; we embed the
  mutating procedures as state-passing functions returning the (possibly
  updated) machine together with an optional abnormal outcome.  A thrown
  `NoPriorGMM` is `RunError.noPriorGMM`.  `initialization` performs no
  such check: with a NULL prior, line 39 (`m_prior_gmm->getWeights()`)
  dereferences the null pointer, which is undefined behaviour, not a
  thrown exception; we record that distinct outcome as
  `RunError.nullDereference`.
* The scratch blitz arrays (`m_cache_alpha`, `m_cache_ml_weights`, ...)
  are pure intermediate values, so they become plain definitions /
  `fun`-bindings; resizing scratch space is a no-op in the embedding
  because shapes are fixed by the types.
-/

/-- A diagonal-covariance Gaussian mixture machine with `K` components of
dimension `D`: per-component weight, mean vector and (diagonal) variance
vector.  Embeds `bob::machine::GMMMachine` as consumed by the trainer. -/
structure GMMMachine (K D : ℕ) where
  weights : Fin K → ℚ
  means : Fin K → Fin D → ℚ
  variances : Fin K → Fin D → ℚ

/-- The sufficient statistics `m_ss` accumulated by the E-step and consumed
by `mStep`: total example count `T`, per-component occupancies `n`, and
first/second moment accumulators `sumPx`, `sumPxx`.  (The log-likelihood
field of the C++ `GMMStats` is not read by `mStep` and is omitted.) -/
structure GMMStats (K D : ℕ) where
  T : ℤ
  n : Fin K → ℚ
  sumPx : Fin K → Fin D → ℚ
  sumPxx : Fin K → Fin D → ℚ

/-- The MAP trainer state: the base-class configuration flags and
threshold, the relevance factor, the (possibly absent) prior GMM pointer,
the Torch3-style fixed adaptation coefficient and its enable flag, and the
sufficient statistics member `m_ss`. -/
structure MAP_GMMTrainer (K D : ℕ) where
  update_means : Bool
  update_variances : Bool
  update_weights : Bool
  m_mean_var_update_responsibilities_threshold : ℚ
  relevance_factor : ℚ
  m_prior_gmm : Option (GMMMachine K D)
  m_T3_alpha : ℚ
  m_T3_adaptation : Bool
  m_ss : GMMStats K D

/-- Abnormal outcomes of a trainer call: the thrown
`bob::trainer::NoPriorGMM` exception, or the undefined behaviour of
dereferencing the NULL `m_prior_gmm` pointer (which the C++ does *not*
turn into an exception). -/
inductive RunError where
  | noPriorGMM : RunError
  | nullDereference : RunError
deriving DecidableEq

/-- `MAP_GMMTrainer::setPriorGMM` (lines 46-50): fails (returns `false`)
on a NULL argument, otherwise stores the pointer and returns `true`. -/
def setPriorGMM {K D : ℕ} (t : MAP_GMMTrainer K D)
    (prior_gmm : Option (GMMMachine K D)) : MAP_GMMTrainer K D × Bool :=
  match prior_gmm with
  | none => (t, false)
  | some p => ({ t with m_prior_gmm := some p }, true)

/-- `MAP_GMMTrainer::initialization` (lines 35-44): resizes `m_ss`
(shape-preserving here, hence omitted) and copies the prior's weights,
means and variances into the model.  There is no check that
`m_prior_gmm` is non-NULL: with no prior set, line 39
(`m_prior_gmm->getWeights()`) dereferences NULL before the model is
touched, so the model is returned unchanged with the
undefined-behaviour marker. -/
def initialization {K D : ℕ} (t : MAP_GMMTrainer K D)
    (gmm : GMMMachine K D) : GMMMachine K D × Option RunError :=
  match t.m_prior_gmm with
  | none => (gmm, some RunError.nullDereference)
  | some prior =>
      ({ weights := prior.weights, means := prior.means,
         variances := prior.variances }, none)

/-- The data-dependent adaptation coefficient cache `m_cache_alpha`
(lines 66-70): the fixed Torch3 constant when `m_T3_adaptation` is set,
else `n_k / (n_k + relevance_factor)`. -/
def m_cache_alpha {K D : ℕ} (t : MAP_GMMTrainer K D) : Fin K → ℚ :=
  fun k =>
    if t.m_T3_adaptation then t.m_T3_alpha
    else t.m_ss.n k / (t.m_ss.n k + t.relevance_factor)

/-- The pre-normalisation blended weights `m_cache_new_weights`
(lines 77-85): `alpha_k * (n_k / T) + (1 - alpha_k) * prior_weight_k`,
with the integer total count `T` cast to a scalar as in line 78. -/
def m_cache_new_weights {K D : ℕ} (t : MAP_GMMTrainer K D)
    (prior : GMMMachine K D) : Fin K → ℚ :=
  fun k =>
    m_cache_alpha t k * (t.m_ss.n k / (t.m_ss.T : ℚ))
      + (1 - m_cache_alpha t k) * prior.weights k

/-- The renormalisation divisor `gamma` (line 88): the sum of the
pre-normalisation blended weights over all components. -/
def weight_gamma {K D : ℕ} (t : MAP_GMMTrainer K D)
    (prior : GMMMachine K D) : ℚ :=
  Finset.univ.sum (m_cache_new_weights t prior)

/-- The weight-update block of `mStep` (lines 74-93): when
`update_weights` is set, commit the blended weights divided by `gamma`;
otherwise leave the machine untouched. -/
def weightStep {K D : ℕ} (t : MAP_GMMTrainer K D) (prior : GMMMachine K D)
    (gmm : GMMMachine K D) : GMMMachine K D :=
  if t.update_weights then
    { gmm with
      weights := fun k => m_cache_new_weights t prior k / weight_gamma t prior }
  else gmm

/-- The new means computed by the mean-update block (lines 100-118):
per component, the prior mean unchanged when the occupancy is below the
responsibilities threshold, else the blend of the maximum-likelihood mean
`sumPx_k / n_k` with the prior mean. -/
def m_cache_new_means {K D : ℕ} (t : MAP_GMMTrainer K D)
    (prior : GMMMachine K D) : Fin K → Fin D → ℚ :=
  fun k d =>
    if t.m_ss.n k < t.m_mean_var_update_responsibilities_threshold then
      prior.means k d
    else
      m_cache_alpha t k * (t.m_ss.sumPx k d / t.m_ss.n k)
        + (1 - m_cache_alpha t k) * prior.means k d

/-- The mean-update block of `mStep` (lines 98-122): when `update_means`
is set, commit the new means; otherwise leave the machine untouched. -/
def meanStep {K D : ℕ} (t : MAP_GMMTrainer K D) (prior : GMMMachine K D)
    (gmm : GMMMachine K D) : GMMMachine K D :=
  if t.update_means then { gmm with means := m_cache_new_means t prior }
  else gmm

/-- The new variances computed by the variance-update block
(lines 129-152).  `gmm` here is the machine state at the time of the
variance pass: line 138 (`gmm.getMeans(m_cache_means)`) reads the means
back from the model, i.e. the means already committed by the mean-update
block when that block ran.  Below threshold the code computes
`prior_variance + prior_mean - mean^2` (the prior mean enters the sum
unsquared, exactly as on line 147); otherwise it blends
`Exx_k = sumPxx_k / n_k` against `prior_variance + prior_mean` and
subtracts `mean^2` (line 150). -/
def new_variances {K D : ℕ} (t : MAP_GMMTrainer K D)
    (prior : GMMMachine K D) (gmm : GMMMachine K D) : Fin K → Fin D → ℚ :=
  fun k d =>
    if t.m_ss.n k < t.m_mean_var_update_responsibilities_threshold then
      prior.variances k d + prior.means k d - (gmm.means k d) ^ 2
    else
      m_cache_alpha t k * (t.m_ss.sumPxx k d / t.m_ss.n k)
        + (1 - m_cache_alpha t k) * (prior.variances k d + prior.means k d)
        - (gmm.means k d) ^ 2

/-- The variance-update block of `mStep` (lines 126-156): when
`update_variances` is set, commit the new variances; otherwise leave the
machine untouched. -/
def varianceStep {K D : ℕ} (t : MAP_GMMTrainer K D) (prior : GMMMachine K D)
    (gmm : GMMMachine K D) : GMMMachine K D :=
  if t.update_variances then
    { gmm with variances := new_variances t prior gmm }
  else gmm

/-- `MAP_GMMTrainer::mStep` (lines 52-157): throw `NoPriorGMM` when no
prior is set (lines 57-60), leaving the model untouched; otherwise run
the weight-update, mean-update and variance-update blocks in that order
on the model. -/
def mStep {K D : ℕ} (t : MAP_GMMTrainer K D) (gmm : GMMMachine K D) :
    GMMMachine K D × Option RunError :=
  match t.m_prior_gmm with
  | none => (gmm, some RunError.noPriorGMM)
  | some prior =>
      (varianceStep t prior (meanStep t prior (weightStep t prior gmm)), none)

/-! ### Projection lemmas for the three update blocks -/

theorem weightStep_means {K D : ℕ} (t : MAP_GMMTrainer K D)
    (prior gmm : GMMMachine K D) : (weightStep t prior gmm).means = gmm.means := by
  unfold weightStep; split <;> rfl

theorem weightStep_variances {K D : ℕ} (t : MAP_GMMTrainer K D)
    (prior gmm : GMMMachine K D) :
    (weightStep t prior gmm).variances = gmm.variances := by
  unfold weightStep; split <;> rfl

theorem weightStep_on {K D : ℕ} (t : MAP_GMMTrainer K D)
    (prior gmm : GMMMachine K D) (hw : t.update_weights = true) :
    (weightStep t prior gmm).weights =
      fun k => m_cache_new_weights t prior k / weight_gamma t prior := by
  unfold weightStep; rw [hw]; simp

theorem weightStep_off {K D : ℕ} (t : MAP_GMMTrainer K D)
    (prior gmm : GMMMachine K D) (hw : t.update_weights = false) :
    weightStep t prior gmm = gmm := by
  unfold weightStep; rw [hw]; simp

theorem meanStep_weights {K D : ℕ} (t : MAP_GMMTrainer K D)
    (prior gmm : GMMMachine K D) : (meanStep t prior gmm).weights = gmm.weights := by
  unfold meanStep; split <;> rfl

theorem meanStep_variances {K D : ℕ} (t : MAP_GMMTrainer K D)
    (prior gmm : GMMMachine K D) :
    (meanStep t prior gmm).variances = gmm.variances := by
  unfold meanStep; split <;> rfl

theorem meanStep_on {K D : ℕ} (t : MAP_GMMTrainer K D)
    (prior gmm : GMMMachine K D) (hm : t.update_means = true) :
    (meanStep t prior gmm).means = m_cache_new_means t prior := by
  unfold meanStep; rw [hm]; simp

theorem meanStep_off {K D : ℕ} (t : MAP_GMMTrainer K D)
    (prior gmm : GMMMachine K D) (hm : t.update_means = false) :
    meanStep t prior gmm = gmm := by
  unfold meanStep; rw [hm]; simp

theorem varianceStep_weights {K D : ℕ} (t : MAP_GMMTrainer K D)
    (prior gmm : GMMMachine K D) :
    (varianceStep t prior gmm).weights = gmm.weights := by
  unfold varianceStep; split <;> rfl

theorem varianceStep_means {K D : ℕ} (t : MAP_GMMTrainer K D)
    (prior gmm : GMMMachine K D) : (varianceStep t prior gmm).means = gmm.means := by
  unfold varianceStep; split <;> rfl

theorem varianceStep_on {K D : ℕ} (t : MAP_GMMTrainer K D)
    (prior gmm : GMMMachine K D) (hv : t.update_variances = true) :
    (varianceStep t prior gmm).variances = new_variances t prior gmm := by
  unfold varianceStep; rw [hv]; simp

theorem varianceStep_off {K D : ℕ} (t : MAP_GMMTrainer K D)
    (prior gmm : GMMMachine K D) (hv : t.update_variances = false) :
    varianceStep t prior gmm = gmm := by
  unfold varianceStep; rw [hv]; simp

theorem mStep_some {K D : ℕ} (t : MAP_GMMTrainer K D) (gmm : GMMMachine K D)
    (prior : GMMMachine K D) (hp : t.m_prior_gmm = some prior) :
    mStep t gmm =
      (varianceStep t prior (meanStep t prior (weightStep t prior gmm)), none) := by
  unfold mStep; rw [hp]

theorem mStep_none {K D : ℕ} (t : MAP_GMMTrainer K D) (gmm : GMMMachine K D)
    (hp : t.m_prior_gmm = none) :
    mStep t gmm = (gmm, some RunError.noPriorGMM) := by
  unfold mStep; rw [hp]

/-! ### Concrete instances (used by the witnesses and counterexamples)

`priorA`/`statsA`/`trainerA` realise Scenario A of the spec: one Gaussian
in one dimension, prior weight 1, prior mean 0, prior variance 1,
relevance factor 16, statistics `T = 16`, `n = 16`, `sumPx = 16`,
`sumPxx = 32`, responsibilities threshold 0, all three updates enabled.
`priorZ`/`statsZ`/`trainerZ` exercise the zero-occupancy fallback: prior
mean 2, prior variance 1, `n = 0`, threshold 1. -/

def priorA : GMMMachine 1 1 :=
  { weights := fun _ => 1, means := fun _ _ => 0, variances := fun _ _ => 1 }

def statsA : GMMStats 1 1 :=
  { T := 16, n := fun _ => 16, sumPx := fun _ _ => 16, sumPxx := fun _ _ => 32 }

def trainerA : MAP_GMMTrainer 1 1 :=
  { update_means := true, update_variances := true, update_weights := true,
    m_mean_var_update_responsibilities_threshold := 0,
    relevance_factor := 16, m_prior_gmm := some priorA,
    m_T3_alpha := 0, m_T3_adaptation := false, m_ss := statsA }

def priorZ : GMMMachine 1 1 :=
  { weights := fun _ => 1, means := fun _ _ => 2, variances := fun _ _ => 1 }

def statsZ : GMMStats 1 1 :=
  { T := 16, n := fun _ => 0, sumPx := fun _ _ => 0, sumPxx := fun _ _ => 0 }

def trainerZ : MAP_GMMTrainer 1 1 :=
  { update_means := true, update_variances := true, update_weights := false,
    m_mean_var_update_responsibilities_threshold := 1,
    relevance_factor := 16, m_prior_gmm := some priorZ,
    m_T3_alpha := 0, m_T3_adaptation := false, m_ss := statsZ }

def trainerNoPrior : MAP_GMMTrainer 1 1 :=
  { update_means := true, update_variances := true, update_weights := true,
    m_mean_var_update_responsibilities_threshold := 0,
    relevance_factor := 16, m_prior_gmm := none,
    m_T3_alpha := 0, m_T3_adaptation := false, m_ss := statsA }

def trainerOff : MAP_GMMTrainer 1 1 :=
  { trainerA with
    update_means := false, update_variances := false, update_weights := false }

/-! ### Shared characterisations of `mStep`'s committed parameters -/

theorem mStep_weights_on {K D : ℕ} (t : MAP_GMMTrainer K D)
    (gmm prior : GMMMachine K D) (hp : t.m_prior_gmm = some prior)
    (hw : t.update_weights = true) :
    (mStep t gmm).1.weights =
      fun k => m_cache_new_weights t prior k / weight_gamma t prior := by
  rw [mStep_some t gmm prior hp]
  show (varianceStep t prior (meanStep t prior (weightStep t prior gmm))).weights = _
  rw [varianceStep_weights, meanStep_weights, weightStep_on t prior gmm hw]

theorem mStep_means_eq {K D : ℕ} (t : MAP_GMMTrainer K D)
    (gmm prior : GMMMachine K D) (hp : t.m_prior_gmm = some prior) :
    (mStep t gmm).1.means =
      (meanStep t prior (weightStep t prior gmm)).means := by
  rw [mStep_some t gmm prior hp]
  exact varianceStep_means t prior _

theorem mStep_variances_on {K D : ℕ} (t : MAP_GMMTrainer K D)
    (gmm prior : GMMMachine K D) (hp : t.m_prior_gmm = some prior)
    (hv : t.update_variances = true) :
    (mStep t gmm).1.variances =
      new_variances t prior (meanStep t prior (weightStep t prior gmm)) := by
  rw [mStep_some t gmm prior hp]
  exact varianceStep_on t prior _ hv

/-! ### Claim theorems -/

/-- C4: when the mean update is enabled and a prior is set, `mStep`
commits, for every component `k` and dimension `d`, the prior mean
unchanged when `n k` is below the responsibilities threshold, and
otherwise the blend
`alpha_k * (sumPx k d / n k) + (1 - alpha_k) * prior_mean` of the
maximum-likelihood mean with the prior mean. -/
theorem mStep_mean_update {K D : ℕ} (t : MAP_GMMTrainer K D)
    (gmm prior : GMMMachine K D) (hp : t.m_prior_gmm = some prior)
    (hm : t.update_means = true) (k : Fin K) (d : Fin D) :
    (mStep t gmm).1.means k d =
      if t.m_ss.n k < t.m_mean_var_update_responsibilities_threshold then
        prior.means k d
      else
        m_cache_alpha t k * (t.m_ss.sumPx k d / t.m_ss.n k)
          + (1 - m_cache_alpha t k) * prior.means k d := by
  rw [mStep_means_eq t gmm prior hp, meanStep_on t prior _ hm]
  rfl

/-- C4 witness: on Scenario A (occupancy 16, threshold 0) the committed
mean is the blend `(1/2)*1 + (1/2)*0 = 1/2`. -/
theorem mStep_mean_update_witness : (mStep trainerA priorA).1.means 0 0 = 1/2 := by
  rw [mStep_mean_update trainerA priorA priorA rfl rfl 0 0]
  norm_num [m_cache_alpha, trainerA, priorA, statsA]

/-- C5: the adaptation coefficient `mStep` uses for a component is the
fixed Torch3 constant when fixed-coefficient mode is enabled and
`n k / (n k + relevance_factor)` otherwise, as observed through the
committed mean of any above-threshold component. -/
theorem mStep_adaptation_coefficient {K D : ℕ} (t : MAP_GMMTrainer K D)
    (gmm prior : GMMMachine K D) (hp : t.m_prior_gmm = some prior)
    (hm : t.update_means = true) (k : Fin K) (d : Fin D)
    (hn : ¬ t.m_ss.n k < t.m_mean_var_update_responsibilities_threshold) :
    (mStep t gmm).1.means k d =
      (if t.m_T3_adaptation then t.m_T3_alpha
       else t.m_ss.n k / (t.m_ss.n k + t.relevance_factor))
        * (t.m_ss.sumPx k d / t.m_ss.n k)
      + (1 - (if t.m_T3_adaptation then t.m_T3_alpha
              else t.m_ss.n k / (t.m_ss.n k + t.relevance_factor)))
        * prior.means k d := by
  rw [mStep_means_eq t gmm prior hp, meanStep_on t prior _ hm]
  show m_cache_new_means t prior k d = _
  unfold m_cache_new_means
  rw [if_neg hn]
  rfl

/-- C5 witness: on Scenario A, fixed-coefficient mode is off and the
coefficient is `16 / (16 + 16) = 1/2`, giving mean `1/2`. -/
theorem mStep_adaptation_coefficient_witness :
    (mStep trainerA priorA).1.means 0 0 = 1/2 := by
  rw [mStep_adaptation_coefficient trainerA priorA priorA rfl rfl 0 0
    (by norm_num [trainerA, statsA])]
  norm_num [trainerA, priorA, statsA]

/-- C6: calling `mStep` with no prior set fails with the missing-prior
error `NoPriorGMM`, and the model's weights, means and variances are
exactly as before the call. -/
theorem mStep_missing_prior {K D : ℕ} (t : MAP_GMMTrainer K D)
    (gmm : GMMMachine K D) (hp : t.m_prior_gmm = none) :
    (mStep t gmm).2 = some RunError.noPriorGMM
    ∧ (mStep t gmm).1.weights = gmm.weights
    ∧ (mStep t gmm).1.means = gmm.means
    ∧ (mStep t gmm).1.variances = gmm.variances := by
  rw [mStep_none t gmm hp]
  exact ⟨rfl, rfl, rfl, rfl⟩

/-- C6 witness: the trainer whose prior pointer is still NULL fails with
`NoPriorGMM` and leaves the model untouched. -/
theorem mStep_missing_prior_witness :
    (mStep trainerNoPrior priorA).2 = some RunError.noPriorGMM
    ∧ (mStep trainerNoPrior priorA).1.weights = priorA.weights
    ∧ (mStep trainerNoPrior priorA).1.means = priorA.means
    ∧ (mStep trainerNoPrior priorA).1.variances = priorA.variances :=
  mStep_missing_prior trainerNoPrior priorA rfl

/-- C9: the three update flags act independently as frame conditions on
`mStep`: with `update_weights` false the committed weights are the input
model's weights, and likewise for `update_means`/means and
`update_variances`/variances, whatever the other flags and the prior. -/
theorem mStep_update_flag_frames {K D : ℕ} (t : MAP_GMMTrainer K D)
    (gmm : GMMMachine K D) :
    (t.update_weights = false → (mStep t gmm).1.weights = gmm.weights)
    ∧ (t.update_means = false → (mStep t gmm).1.means = gmm.means)
    ∧ (t.update_variances = false → (mStep t gmm).1.variances = gmm.variances) := by
  cases hp : t.m_prior_gmm with
  | none =>
      rw [mStep_none t gmm hp]
      exact ⟨fun _ => rfl, fun _ => rfl, fun _ => rfl⟩
  | some prior =>
      rw [mStep_some t gmm prior hp]
      refine ⟨fun hw => ?_, fun hm => ?_, fun hv => ?_⟩
      · show (varianceStep t prior (meanStep t prior (weightStep t prior gmm))).weights = _
        rw [varianceStep_weights, meanStep_weights, weightStep_off t prior gmm hw]
      · show (varianceStep t prior (meanStep t prior (weightStep t prior gmm))).means = _
        rw [varianceStep_means, meanStep_off t prior _ hm, weightStep_means]
      · show (varianceStep t prior (meanStep t prior (weightStep t prior gmm))).variances = _
        rw [varianceStep_off t prior _ hv, meanStep_variances, weightStep_variances]

/-- C9 witness: with all three flags off (and a prior set), `mStep`
leaves weights, means and variances of the model untouched. -/
theorem mStep_update_flag_frames_witness :
    (mStep trainerOff priorA).1.weights = priorA.weights
    ∧ (mStep trainerOff priorA).1.means = priorA.means
    ∧ (mStep trainerOff priorA).1.variances = priorA.variances :=
  ⟨(mStep_update_flag_frames trainerOff priorA).1 rfl,
   (mStep_update_flag_frames trainerOff priorA).2.1 rfl,
   (mStep_update_flag_frames trainerOff priorA).2.2 rfl⟩

/-- C2: when the variance update is enabled and a prior is set, the
committed variance of every component and dimension is the threshold
fallback `prior_variance + prior_mean - mean^2`, or above threshold the
blend `alpha_k * (sumPxx/n) + (1 - alpha_k) * (prior_variance +
prior_mean) - mean^2`, where `mean` is the model's mean as committed by
the call itself: the mean-update result when `update_means` is set, and
the pre-call model mean otherwise. -/
theorem mStep_variance_update {K D : ℕ} (t : MAP_GMMTrainer K D)
    (gmm prior : GMMMachine K D) (hp : t.m_prior_gmm = some prior)
    (hv : t.update_variances = true) (k : Fin K) (d : Fin D) :
    ((mStep t gmm).1.variances k d =
      if t.m_ss.n k < t.m_mean_var_update_responsibilities_threshold then
        prior.variances k d + prior.means k d - ((mStep t gmm).1.means k d) ^ 2
      else
        m_cache_alpha t k * (t.m_ss.sumPxx k d / t.m_ss.n k)
          + (1 - m_cache_alpha t k) * (prior.variances k d + prior.means k d)
          - ((mStep t gmm).1.means k d) ^ 2)
    ∧ (t.update_means = true →
        (mStep t gmm).1.means k d = m_cache_new_means t prior k d)
    ∧ (t.update_means = false →
        (mStep t gmm).1.means k d = gmm.means k d) := by
  rw [mStep_variances_on t gmm prior hp hv, mStep_means_eq t gmm prior hp]
  refine ⟨rfl, fun hm => ?_, fun hm => ?_⟩
  · rw [meanStep_on t prior _ hm]
  · rw [meanStep_off t prior _ hm, weightStep_means]

/-- C2 witness: on Scenario A the committed variance is
`(1/2)*2 + (1/2)*(1+0) - (1/2)^2 = 5/4`, computed from the freshly
committed mean `1/2` rather than the prior mean `0`. -/
theorem mStep_variance_update_witness :
    (mStep trainerA priorA).1.variances 0 0 = 5/4 := by
  have h := mStep_variance_update trainerA priorA priorA rfl rfl 0 0
  rw [h.1, h.2.1 rfl]
  norm_num [m_cache_alpha, m_cache_new_means, trainerA, priorA, statsA]

/-- C3: when the weight update is enabled, a prior is set and the
renormalisation divisor `gamma` is nonzero, every committed weight is
the blend `alpha_k * (n_k / T) + (1 - alpha_k) * prior_weight_k` divided
by `gamma` (the sum of the pre-normalisation blends over all
components), and the committed weights sum to 1. -/
theorem mStep_weight_update {K D : ℕ} (t : MAP_GMMTrainer K D)
    (gmm prior : GMMMachine K D) (hp : t.m_prior_gmm = some prior)
    (hw : t.update_weights = true) (hg : weight_gamma t prior ≠ 0) :
    (∀ k, (mStep t gmm).1.weights k =
        (m_cache_alpha t k * (t.m_ss.n k / (t.m_ss.T : ℚ))
          + (1 - m_cache_alpha t k) * prior.weights k) / weight_gamma t prior)
    ∧ Finset.univ.sum (mStep t gmm).1.weights = 1 := by
  rw [mStep_weights_on t gmm prior hp hw]
  constructor
  · intro k
    rfl
  · rw [← Finset.sum_div]
    have hsum : Finset.univ.sum (m_cache_new_weights t prior) = weight_gamma t prior := rfl
    rw [hsum, div_self hg]

/-- C3 witness: on Scenario A the blend is `(1/2)*1 + (1/2)*1 = 1`,
`gamma = 1 ≠ 0`, the committed weight is `1` and the weights sum to 1. -/
theorem mStep_weight_update_witness :
    Finset.univ.sum (mStep trainerA priorA).1.weights = 1 :=
  (mStep_weight_update trainerA priorA priorA rfl rfl
    (by norm_num [weight_gamma, m_cache_new_weights, m_cache_alpha,
      trainerA, priorA, statsA, Fin.sum_univ_one])).2

/-- C7 counterexample: with no prior set, `initialization` does not
produce the checked missing-prior error that `mStep` throws; it runs
into the NULL-pointer dereference of line 39 instead (undefined
behaviour in the C++, there is no prior check in lines 35-44). -/
theorem initialization_missing_prior_counterexample :
    (initialization trainerNoPrior priorA).2 ≠ some RunError.noPriorGMM
    ∧ (initialization trainerNoPrior priorA).2 = some RunError.nullDereference := by
  constructor <;> simp [initialization, trainerNoPrior]

/-- C7 (amended): calling `initialization` before a prior has been set
does not raise the checked missing-prior error: the code performs no
prior check and dereferences the NULL prior pointer (undefined
behaviour), leaving the model untouched up to that point. -/
theorem initialization_missing_prior_behaviour {K D : ℕ}
    (t : MAP_GMMTrainer K D) (gmm : GMMMachine K D)
    (hp : t.m_prior_gmm = none) :
    initialization t gmm = (gmm, some RunError.nullDereference)
    ∧ (initialization t gmm).2 ≠ some RunError.noPriorGMM := by
  have h : initialization t gmm = (gmm, some RunError.nullDereference) := by
    unfold initialization
    rw [hp]
  exact ⟨h, by rw [h]; simp⟩

/-- C7 witness: the concrete no-prior trainer hits the NULL dereference,
not the checked error. -/
theorem initialization_missing_prior_behaviour_witness :
    initialization trainerNoPrior priorA
      = (priorA, some RunError.nullDereference) :=
  (initialization_missing_prior_behaviour trainerNoPrior priorA rfl).1

/-- C8: `setPriorGMM` fails (returns `false`) exactly when the supplied
prior is NULL; on a non-NULL prior it returns `true`, stores the
reference, and `mStep` on the resulting trainer never fails with the
missing-prior error. -/
theorem setPriorGMM_contract {K D : ℕ} (t : MAP_GMMTrainer K D)
    (p : Option (GMMMachine K D)) :
    ((setPriorGMM t p).2 = false ↔ p = none)
    ∧ ∀ g : GMMMachine K D, p = some g →
        (setPriorGMM t p).2 = true
        ∧ (setPriorGMM t p).1.m_prior_gmm = some g
        ∧ ∀ gmm : GMMMachine K D,
            (mStep (setPriorGMM t p).1 gmm).2 ≠ some RunError.noPriorGMM := by
  cases p with
  | none =>
      refine ⟨by simp [setPriorGMM], ?_⟩
      intro g h
      cases h
  | some q =>
      refine ⟨by simp [setPriorGMM], ?_⟩
      intro g h
      obtain rfl : q = g := by injection h
      refine ⟨rfl, rfl, ?_⟩
      intro gmm
      rw [mStep_some ((setPriorGMM t (some q)).1) gmm q rfl]
      simp

/-- C8 witness: setting the Scenario A prior on the no-prior trainer
succeeds, stores it, and the subsequent `mStep` does not fail with the
missing-prior error. -/
theorem setPriorGMM_contract_witness :
    (setPriorGMM trainerNoPrior (some priorA)).2 = true
    ∧ (setPriorGMM trainerNoPrior (some priorA)).1.m_prior_gmm = some priorA
    ∧ (mStep (setPriorGMM trainerNoPrior (some priorA)).1 priorA).2
        ≠ some RunError.noPriorGMM := by
  have h := (setPriorGMM_contract trainerNoPrior (some priorA)).2 priorA rfl
  exact ⟨h.1, h.2.1, h.2.2 priorA⟩

/-- C10: in data-dependent mode with a positive relevance factor,
non-negative occupancies, a positive total count, and prior weights that
are non-negative and sum to 1, every adaptation coefficient lies in
`[0, 1)`, the renormalisation divisor `gamma` is strictly positive (so
dividing by it is safe), and every weight committed by `mStep` is
non-negative. -/
theorem mStep_weight_update_safety {K D : ℕ} (t : MAP_GMMTrainer K D)
    (gmm prior : GMMMachine K D) (hp : t.m_prior_gmm = some prior)
    (hw : t.update_weights = true) (hT3 : t.m_T3_adaptation = false)
    (hrf : 0 < t.relevance_factor) (hn : ∀ k, 0 ≤ t.m_ss.n k)
    (hT : 0 < t.m_ss.T) (hpw : ∀ k, 0 ≤ prior.weights k)
    (hsum : Finset.univ.sum prior.weights = 1) :
    (∀ k, 0 ≤ m_cache_alpha t k ∧ m_cache_alpha t k < 1)
    ∧ 0 < weight_gamma t prior
    ∧ ∀ k, 0 ≤ (mStep t gmm).1.weights k := by
  have hTq : (0 : ℚ) < (t.m_ss.T : ℚ) := by exact_mod_cast hT
  have halpha : ∀ k, 0 ≤ m_cache_alpha t k ∧ m_cache_alpha t k < 1 := by
    intro k
    have hden : 0 < t.m_ss.n k + t.relevance_factor :=
      add_pos_of_nonneg_of_pos (hn k) hrf
    have hval : m_cache_alpha t k
        = t.m_ss.n k / (t.m_ss.n k + t.relevance_factor) := by
      unfold m_cache_alpha
      rw [hT3]
      simp
    rw [hval]
    exact ⟨div_nonneg (hn k) (le_of_lt hden),
      (div_lt_one hden).mpr (lt_add_of_pos_right _ hrf)⟩
  have hblend : ∀ k, 0 ≤ m_cache_new_weights t prior k := by
    intro k
    have h1 : 0 ≤ m_cache_alpha t k * (t.m_ss.n k / (t.m_ss.T : ℚ)) :=
      mul_nonneg (halpha k).1 (div_nonneg (hn k) (le_of_lt hTq))
    have h2 : 0 ≤ (1 - m_cache_alpha t k) * prior.weights k :=
      mul_nonneg (by linarith [(halpha k).2]) (hpw k)
    unfold m_cache_new_weights
    linarith
  have hgamma : 0 < weight_gamma t prior := by
    obtain ⟨k0, hk0⟩ : ∃ k : Fin K, prior.weights k ≠ 0 := by
      by_contra h
      push_neg at h
      rw [Finset.sum_eq_zero (fun k _ => h k)] at hsum
      exact absurd hsum (by norm_num)
    have hk0pos : 0 < prior.weights k0 := lt_of_le_of_ne (hpw k0) (Ne.symm hk0)
    have hbk0 : 0 < m_cache_new_weights t prior k0 := by
      have h2 : 0 < (1 - m_cache_alpha t k0) * prior.weights k0 :=
        mul_pos (by linarith [(halpha k0).2]) hk0pos
      have h1 : 0 ≤ m_cache_alpha t k0 * (t.m_ss.n k0 / (t.m_ss.T : ℚ)) :=
        mul_nonneg (halpha k0).1 (div_nonneg (hn k0) (le_of_lt hTq))
      unfold m_cache_new_weights
      linarith
    exact lt_of_lt_of_le hbk0
      (Finset.single_le_sum (fun k _ => hblend k) (Finset.mem_univ k0))
  refine ⟨halpha, hgamma, ?_⟩
  intro k
  rw [mStep_weights_on t gmm prior hp hw]
  exact div_nonneg (hblend k) (le_of_lt hgamma)

/-- C10 witness: Scenario A satisfies every hypothesis; its coefficient
is in `[0,1)`, `gamma` is positive, and the committed weight is
non-negative. -/
theorem mStep_weight_update_safety_witness :
    (0 ≤ m_cache_alpha trainerA 0 ∧ m_cache_alpha trainerA 0 < 1)
    ∧ 0 < weight_gamma trainerA priorA
    ∧ 0 ≤ (mStep trainerA priorA).1.weights 0 := by
  have h := mStep_weight_update_safety trainerA priorA priorA rfl rfl rfl
    (by norm_num [trainerA])
    (fun k => by norm_num [trainerA, statsA])
    (by norm_num [trainerA, statsA])
    (fun k => by norm_num [priorA])
    (by simp [priorA])
  exact ⟨h.1 0, h.2.1, h.2.2 0⟩

/-- C1: at zero occupancy (`n = 0`) with a non-negative responsibilities
threshold (here 1) and mean and variance updates enabled, the committed
mean does equal the prior mean (2), but the committed variance is
`prior_variance + prior_mean - mean^2 = 1 + 2 - 2^2 = -1`, not the prior
variance 1: line 147 adds the prior mean unsquared to the prior
variance, contradicting equation 13 of Reynolds et al. that the code's
own comments (lines 125, 142) claim to implement, under which the
fallback would return exactly the prior variance. -/
theorem mStep_zero_occupancy_divergence :
    (mStep trainerZ priorZ).1.means 0 0 = priorZ.means 0 0
    ∧ (mStep trainerZ priorZ).1.variances 0 0 = -1
    ∧ priorZ.variances 0 0 = 1 := by
  refine ⟨?_, ?_, rfl⟩ <;>
    norm_num [mStep, varianceStep, meanStep, weightStep, m_cache_new_means,
      m_cache_new_weights, m_cache_alpha, weight_gamma, new_variances,
      trainerZ, priorZ, statsZ]
